import Mathlib

/-
Verification of the Seymour-vertex interactive graph editor
(repository: ThomasKidane/seymourvertices).

The development shallowly embeds the two components of the repository:

1. the Python classifier `analyze_seymour_vertices` / `get_seymour_vertices`
   (identical copies live in src/interactive_graph_editor.py lines 6-37 and
   src/seymour_graph_game.py lines 55-85), and
2. the in-canvas JavaScript editor generated by
   `create_interactive_graph_editor` (src/interactive_graph_editor.py lines
   200-770): its per-vertex classifier `updateSeymourStatus`, the hit-testing
   helpers `getNodeAt` / `getEdgeAt` / `distanceToLine`, the node renumbering
   helper `renumberNodes`, the win check `checkForWin`, and the mouse event
   handlers (mousedown, mousemove, mouseup, contextmenu, graphDataUpdate).

Modelling conventions, stated once:
  * A directed edge is an ordered pair of natural-number vertex ids.
  * Python sets of vertex ids are embedded as `Finset Nat`; the Python dict
    produced by `analyze_seymour_vertices` iterates `G.nodes()` in insertion
    order, so the per-graph node order is carried explicitly as a `List Nat`.
  * JavaScript arrays are embedded as Lean lists; array iteration order is
    list order.
  * Canvas coordinates are embedded as integers.  All coordinates appearing
    in the claims (the initial grid layout `50 + (i % 5) * 150`,
    `50 + (i / 5) * 120`, and integer mouse positions) are integers, on which
    JavaScript float arithmetic is exact.  The two source comparisons that
    use `Math.sqrt` (node hit radius, drag threshold) are embedded as the
    equivalent comparisons of squared distances, and the segment-distance
    comparison of `distanceToLine` (which divides by the positive `lenSq`)
    is embedded with the denominator cleared; both transformations are exact
    for real arithmetic, so no behaviour is changed.
  * In-place JavaScript object mutation and object-identity tests
    (`edge !== e`, `node !== n`, `targetNode !== startDragNode`) are embedded
    by tracking the list position of the found object: `Array.find` returns
    the first match, and removing or mutating that object removes or mutates
    exactly that list position.  A reference saved across a wholesale
    replacement of `graphData` (the `graphDataUpdate` listener) no longer
    aliases any listed object; the editor state carries a `detached` flag
    recording exactly that.
-/

namespace SeymourVertices

/-! ## The Python classifier, `analyze_seymour_vertices`

Source (src/interactive_graph_editor.py lines 6-32):
```
for v in G.nodes():
    first_neighbors = set(G.successors(v))
    raw_second_neighbors = set()
    for u in first_neighbors:
        for w in G.successors(u):
            raw_second_neighbors.add(w)
    second_neighbors = raw_second_neighbors - first_neighbors
    second_neighbors.discard(v)
    analysis[v] = { 'out_degree': len(first_neighbors), ... }
```
-/

/-- The successor targets of `v` listed along the edge list: the list of `w`
with `(v, w)` an edge, in edge-list order.  This is simultaneously
`G.successors(v)` (Python, before taking the set) and
`edges.filter(e => e.from === v).map(e => e.to)` (JavaScript). -/
def successorTargets (E : List (Nat × Nat)) (v : Nat) : List Nat :=
  (E.filter (fun e => e.1 == v)).map (fun e => e.2)

/-- `set(G.successors(v))`: the out-neighbor set of `v`. -/
def firstNeighbors (E : List (Nat × Nat)) (v : Nat) : Finset Nat :=
  (successorTargets E v).toFinset

/-- The raw two-hop set: the union over first neighbors `u` of the successor
set of `u` (the two nested `for` loops accumulating into a Python set). -/
def rawSecondNeighbors (E : List (Nat × Nat)) (v : Nat) : Finset Nat :=
  (firstNeighbors E v).biUnion (fun u => (successorTargets E u).toFinset)

/-- `raw_second_neighbors - first_neighbors` followed by `discard(v)`. -/
def secondNeighbors (E : List (Nat × Nat)) (v : Nat) : Finset Nat :=
  ((rawSecondNeighbors E v) \ (firstNeighbors E v)).erase v

/-- The per-vertex analysis dict entry built by `analyze_seymour_vertices`. -/
structure AnalysisRecord where
  out_degree : Nat
  first_neighbors : Finset Nat
  second_neighbors : Finset Nat
  second_neighbor_count : Nat
  satisfies_property : Bool
  ratio : Rat

/-- The entry `analysis[v]`.  The `ratio` field embeds the Python float
division `len(second_neighbors) / max(len(first_neighbors), 1)` as the exact
rational value. -/
def analyzeVertex (E : List (Nat × Nat)) (v : Nat) : AnalysisRecord :=
  let first := firstNeighbors E v
  let second := secondNeighbors E v
  { out_degree := first.card
    first_neighbors := first
    second_neighbors := second
    second_neighbor_count := second.card
    satisfies_property := decide (second.card ≥ first.card)
    ratio := (second.card : Rat) / ((max first.card 1 : Nat) : Rat) }

/-- The whole analysis dict: one entry per vertex, keyed in the node
iteration order of the graph (Python dicts preserve insertion order, and the
loop inserts in `G.nodes()` order). -/
def analyzeSeymourVertices (order : List Nat) (E : List (Nat × Nat)) :
    List (Nat × AnalysisRecord) :=
  order.map (fun v => (v, analyzeVertex E v))

/-- `get_seymour_vertices`:
`[v for v, data in analysis.items() if data['satisfies_property']]`.
The comprehension iterates the dict in insertion order. -/
def getSeymourVertices (order : List Nat) (E : List (Nat × Nat)) : List Nat :=
  ((analyzeSeymourVertices order E).filter
    (fun p => p.2.satisfies_property)).map (fun p => p.1)

/-! ### The networkx node order

`create_interactive_graph_editor` builds the analysed graph by
`G.add_edges_from(edges)` followed by `G.add_nodes_from(nodes)`
(src/interactive_graph_editor.py lines 47-49).  networkx stores nodes in a
dict, so `G.nodes()` iterates in first-insertion order: each edge inserts its
source then its target if not yet present, then the remaining listed nodes
follow. -/

/-- Insert a node id at the end unless already present (dict insertion). -/
def addNodeOnce (l : List Nat) (v : Nat) : List Nat :=
  if v ∈ l then l else l ++ [v]

/-- The `G.nodes()` iteration order after `add_edges_from` then
`add_nodes_from`. -/
def nxNodeOrder (E : List (Nat × Nat)) (nodes : List Nat) : List Nat :=
  nodes.foldl addNodeOnce
    (E.foldl (fun l e => addNodeOnce (addNodeOnce l e.1) e.2) [])

/-! ## The JavaScript classifier, `updateSeymourStatus`

Source (src/interactive_graph_editor.py lines 411-434):
```
const outEdges = graphData.edges.filter(e => e.from === node.id);
const firstNeighbors = outEdges.map(e => e.to);
let secondNeighbors = [];
for (let neighbor of firstNeighbors) {
    const secondEdges = graphData.edges.filter(e => e.from === neighbor);
    for (let edge of secondEdges) {
        if (edge.to !== node.id && !firstNeighbors.includes(edge.to)) {
            if (!secondNeighbors.includes(edge.to)) {
                secondNeighbors.push(edge.to);
            }
        }
    }
}
node.is_seymour = secondNeighbors.length >= firstNeighbors.length;
```
-/

/-- The JavaScript `firstNeighbors` array for vertex `v`. -/
def jsFirstNeighbors (E : List (Nat × Nat)) (v : Nat) : List Nat :=
  successorTargets E v

/-- One step of the inner loop body: push `w` onto the accumulator when it is
neither the vertex itself, nor a first neighbor, nor already collected. -/
def pushSecond (v : Nat) (first : List Nat) (acc : List Nat) (w : Nat) :
    List Nat :=
  if w ≠ v ∧ w ∉ first ∧ w ∉ acc then acc ++ [w] else acc

/-- The JavaScript `secondNeighbors` array for vertex `v`: the two nested
loops, iterating first neighbors in array order and for each of them the
targets of its out-edges in array order. -/
def jsSecondNeighbors (E : List (Nat × Nat)) (v : Nat) : List Nat :=
  let first := jsFirstNeighbors E v
  first.foldl
    (fun acc u => (successorTargets E u).foldl (pushSecond v first) acc) []

/-- The verdict `updateSeymourStatus` stores in `node.is_seymour`. -/
def jsIsSeymour (E : List (Nat × Nat)) (v : Nat) : Bool :=
  decide ((jsSecondNeighbors E v).length ≥ (jsFirstNeighbors E v).length)

/-! ## Basic classifier lemmas -/

theorem mem_successorTargets {E : List (Nat × Nat)} {v w : Nat} :
    w ∈ successorTargets E v ↔ (v, w) ∈ E := by
  unfold successorTargets
  simp only [List.mem_map, List.mem_filter, beq_iff_eq]
  constructor
  · rintro ⟨e, ⟨he, h1⟩, h2⟩
    have : e = (v, w) := by
      cases e with
      | mk a b => simp_all
    exact this ▸ he
  · intro h
    exact ⟨(v, w), ⟨h, rfl⟩, rfl⟩

theorem mem_firstNeighbors {E : List (Nat × Nat)} {v w : Nat} :
    w ∈ firstNeighbors E v ↔ (v, w) ∈ E := by
  unfold firstNeighbors
  rw [List.mem_toFinset, mem_successorTargets]

theorem mem_rawSecondNeighbors {E : List (Nat × Nat)} {v w : Nat} :
    w ∈ rawSecondNeighbors E v ↔ ∃ u ∈ firstNeighbors E v, (u, w) ∈ E := by
  unfold rawSecondNeighbors
  simp only [Finset.mem_biUnion, List.mem_toFinset, mem_successorTargets]

theorem mem_secondNeighbors {E : List (Nat × Nat)} {v w : Nat} :
    w ∈ secondNeighbors E v ↔
      (∃ u ∈ firstNeighbors E v, (u, w) ∈ E) ∧
        w ∉ firstNeighbors E v ∧ w ≠ v := by
  unfold secondNeighbors
  simp only [Finset.mem_erase, Finset.mem_sdiff, mem_rawSecondNeighbors]
  tauto

theorem secondNeighbors_disjoint (E : List (Nat × Nat)) (v : Nat) :
    Disjoint (secondNeighbors E v) (firstNeighbors E v) := by
  unfold secondNeighbors
  exact Disjoint.mono_left (Finset.erase_subset _ _) Finset.sdiff_disjoint

theorem self_not_mem_secondNeighbors (E : List (Nat × Nat)) (v : Nat) :
    v ∉ secondNeighbors E v := by
  unfold secondNeighbors
  exact Finset.not_mem_erase _ _

/-! ## Claim C1 -/

/-- C1: for every directed graph and vertex `v`, the analysis record of
`analyze_seymour_vertices` satisfies the contract of section 4.1:
`first_neighbors` is the out-neighbor set of `v`; `second_neighbors` is the
set reachable in exactly two hops minus the first neighbors and minus `v`
(hence disjoint from the first neighbors and never containing `v`);
`satisfies_property` holds iff the second-neighbor count is at least the
first-neighbor count; and `ratio` is the second-neighbor count divided by
`max(out-degree, 1)`.  On the graph with edges (0,1),(1,2),(2,0),(1,3),
vertex 1 is not flagged (second neighbors = {0}, out-degree 2) and vertex 0
is flagged (second neighbors = {2,3}). -/
theorem C1_classifier_contract :
    (∀ (E : List (Nat × Nat)) (v : Nat),
      (∀ w, w ∈ (analyzeVertex E v).first_neighbors ↔ (v, w) ∈ E) ∧
      (∀ w, w ∈ (analyzeVertex E v).second_neighbors ↔
        ((∃ u ∈ (analyzeVertex E v).first_neighbors, (u, w) ∈ E) ∧
          w ∉ (analyzeVertex E v).first_neighbors ∧ w ≠ v)) ∧
      Disjoint (analyzeVertex E v).second_neighbors
        (analyzeVertex E v).first_neighbors ∧
      v ∉ (analyzeVertex E v).second_neighbors ∧
      ((analyzeVertex E v).satisfies_property = true ↔
        (analyzeVertex E v).second_neighbors.card ≥
          (analyzeVertex E v).first_neighbors.card) ∧
      (analyzeVertex E v).out_degree = (analyzeVertex E v).first_neighbors.card ∧
      (analyzeVertex E v).ratio =
        ((analyzeVertex E v).second_neighbors.card : Rat) /
          ((max (analyzeVertex E v).first_neighbors.card 1 : Nat) : Rat)) ∧
    (analyzeVertex [(0,1),(1,2),(2,0),(1,3)] 1).second_neighbors = {0} ∧
    (analyzeVertex [(0,1),(1,2),(2,0),(1,3)] 1).out_degree = 2 ∧
    (analyzeVertex [(0,1),(1,2),(2,0),(1,3)] 1).satisfies_property = false ∧
    (analyzeVertex [(0,1),(1,2),(2,0),(1,3)] 0).second_neighbors = {2, 3} ∧
    (analyzeVertex [(0,1),(1,2),(2,0),(1,3)] 0).satisfies_property = true := by
  refine ⟨fun E v => ⟨fun w => mem_firstNeighbors, fun w => mem_secondNeighbors,
    secondNeighbors_disjoint E v, self_not_mem_secondNeighbors E v, ?_, rfl, rfl⟩,
    ?_, ?_, ?_, ?_, ?_⟩
  · show decide _ = true ↔ _
    exact decide_eq_true_iff
  · decide
  · decide
  · decide
  · decide
  · decide

/-! ## Claim C9 -/

/-- C9: a vertex with out-degree 0 has empty first- and second-neighbor sets
and is flagged (0 is at least 0), in both the Python classifier and the
in-canvas JavaScript classifier. -/
theorem C9_out_degree_zero_flagged (E : List (Nat × Nat)) (v : Nat)
    (h : (analyzeVertex E v).out_degree = 0) :
    (analyzeVertex E v).first_neighbors = ∅ ∧
    (analyzeVertex E v).second_neighbors = ∅ ∧
    (analyzeVertex E v).satisfies_property = true ∧
    jsFirstNeighbors E v = [] ∧
    jsSecondNeighbors E v = [] ∧
    jsIsSeymour E v = true := by
  have hfirst : firstNeighbors E v = ∅ := Finset.card_eq_zero.mp h
  have hlist : successorTargets E v = [] := by
    have h2 : (successorTargets E v).toFinset = ∅ := hfirst
    exact (List.toFinset_eq_empty_iff _).mp h2
  have hsecond : secondNeighbors E v = ∅ := by
    unfold secondNeighbors rawSecondNeighbors
    rw [hfirst]
    simp
  refine ⟨hfirst, hsecond, ?_, hlist, ?_, ?_⟩
  · show decide ((secondNeighbors E v).card ≥ (firstNeighbors E v).card) = true
    rw [hfirst, hsecond]
    decide
  · unfold jsSecondNeighbors jsFirstNeighbors
    rw [hlist]
    rfl
  · unfold jsIsSeymour jsSecondNeighbors jsFirstNeighbors
    rw [hlist]
    rfl

/-- Witness for C9 at a concrete input: in the one-edge graph (1,2), vertex 0
has out-degree 0 and is flagged by both classifiers. -/
theorem C9_out_degree_zero_flagged_witness :
    (analyzeVertex [(1, 2)] 0).out_degree = 0 ∧
    (analyzeVertex [(1, 2)] 0).satisfies_property = true ∧
    jsIsSeymour [(1, 2)] 0 = true := by
  refine ⟨by decide, ?_, ?_⟩
  · exact (C9_out_degree_zero_flagged [(1, 2)] 0 (by decide)).2.2.1
  · exact (C9_out_degree_zero_flagged [(1, 2)] 0 (by decide)).2.2.2.2.2

/-! ## Claim C5 -/

/-- Filtering a tagged map then projecting the keys is filtering the keys:
the list shape of `get_seymour_vertices`. -/
theorem map_fst_filter_map_pair {α β : Type} (p : β → Bool) (f : α → β) :
    ∀ l : List α,
      ((l.map (fun v => (v, f v))).filter (fun q => p q.2)).map Prod.fst =
        l.filter (fun v => p (f v))
  | [] => rfl
  | a :: l => by
    cases h : p (f a) <;>
      simp [List.filter_cons, h, map_fst_filter_map_pair p f l]

/-- C5 (amended): `get_seymour_vertices` returns exactly the vertex ids whose
analysis record is flagged, listed in the node iteration (insertion) order of
the graph — not necessarily in ascending id order. -/
theorem C5_flagged_vertices_in_node_order (order : List Nat)
    (E : List (Nat × Nat)) :
    getSeymourVertices order E =
      order.filter (fun v => (analyzeVertex E v).satisfies_property) := by
  unfold getSeymourVertices analyzeSeymourVertices
  exact map_fst_filter_map_pair _ _ order

/-- C5 counterexample: on the graph built (as `create_interactive_graph_editor`
builds it, edges first) from nodes [0,1,2] and edges (1,2),(2,0), the node
iteration order is [1,2,0] and `get_seymour_vertices` returns [1,0], which is
not in ascending id order. -/
theorem C5_counterexample :
    getSeymourVertices (nxNodeOrder [(1, 2), (2, 0)] [0, 1, 2])
        [(1, 2), (2, 0)] = [1, 0] ∧
    ¬ List.Pairwise (· ≤ ·)
        (getSeymourVertices (nxNodeOrder [(1, 2), (2, 0)] [0, 1, 2])
          [(1, 2), (2, 0)]) := by
  constructor
  · decide
  · decide

/-! ## The editor loader (`create_interactive_graph_editor`, lines 39-68)

```
for i, node in enumerate(graph_data.get('nodes', [])):
    nodes.append({'id': node,
                  'x': 50 + (i % 5) * 150,
                  'y': 50 + (i // 5) * 120,
                  'is_seymour': node in seymour_vertices})
for edge in graph_data.get('edges', []):
    edges.append({'from': edge[0], 'to': edge[1]})
```
-/

/-- A node object of the in-canvas editor (`graphData.nodes[i]`). -/
structure JsNode where
  id : Nat
  x : Int
  y : Int
  is_seymour : Bool
deriving DecidableEq, Repr

/-- Initial grid x coordinate: `50 + (i % 5) * 150`. -/
def gridX (i : Nat) : Int := 50 + (i % 5 : Nat) * 150

/-- Initial grid y coordinate: `50 + (i // 5) * 120`. -/
def gridY (i : Nat) : Int := 50 + (i / 5 : Nat) * 120

/-- The node and edge arrays `create_interactive_graph_editor` serialises
into the page: ids are taken from the input unchanged, positions follow the
row-major grid, flags come from the Python classifier over the
edges-first-loaded graph; edges are passed through unchanged. -/
def loadEditor (nodes : List Nat) (edges : List (Nat × Nat)) :
    List JsNode × List (Nat × Nat) :=
  let seym := getSeymourVertices (nxNodeOrder edges nodes) edges
  (nodes.enum.map (fun p => ⟨p.2, gridX p.1, gridY p.1, decide (p.2 ∈ seym)⟩),
    edges)

/-! ## Claim C6 -/

/-- C6 (amended): the Editor does not renumber on load: the loaded node
objects carry exactly the supplied vertex ids in order, and the edge list is
passed through with endpoints unchanged.  (Renumbering happens only in the
deletion path.) -/
theorem C6_load_preserves_ids (ns : List Nat) (es : List (Nat × Nat)) :
    (loadEditor ns es).1.map JsNode.id = ns ∧ (loadEditor ns es).2 = es := by
  constructor
  · show ((ns.enum.map _).map JsNode.id) = ns
    rw [List.map_map]
    exact List.enum_map_snd ns
  · rfl

/-- C6 counterexample: loading vertex ids [5,7] (with edge (5,7)) leaves the
ids 5 and 7 in place; the loaded id set is not 0..n-1. -/
theorem C6_counterexample :
    (loadEditor [5, 7] [(5, 7)]).1.map JsNode.id = [5, 7] ∧
    ((loadEditor [5, 7] [(5, 7)]).1.map JsNode.id).toFinset ≠
      Finset.range 2 ∧
    (loadEditor [5, 7] [(5, 7)]).2 = [(5, 7)] := by
  refine ⟨by decide, by decide, rfl⟩

/-! ## Claim C10: the two classifiers agree -/

theorem nodup_successorTargets {E : List (Nat × Nat)} (h : E.Nodup)
    (v : Nat) : (successorTargets E v).Nodup := by
  unfold successorTargets
  refine List.Nodup.map_on ?_ (h.filter _)
  intro a ha b hb hab
  have ha1 : a.1 = v := by
    have := (List.mem_filter.mp ha).2
    simpa using this
  have hb1 : b.1 = v := by
    have := (List.mem_filter.mp hb).2
    simpa using this
  cases a
  cases b
  simp_all

theorem mem_foldl_pushSecond (v : Nat) (first : List Nat) :
    ∀ (ws acc : List Nat) (x : Nat),
      x ∈ ws.foldl (pushSecond v first) acc ↔
        x ∈ acc ∨ (x ∈ ws ∧ x ≠ v ∧ x ∉ first)
  | [], acc, x => by simp
  | w :: ws, acc, x => by
    rw [List.foldl_cons, mem_foldl_pushSecond v first ws _ x]
    unfold pushSecond
    by_cases hc : w ≠ v ∧ w ∉ first ∧ w ∉ acc
    · rw [if_pos hc]
      simp only [List.mem_append, List.mem_cons, List.not_mem_nil, or_false]
      constructor
      · rintro ((hx | hx) | hx)
        · exact Or.inl hx
        · subst hx
          exact Or.inr ⟨Or.inl rfl, hc.1, hc.2.1⟩
        · exact Or.inr ⟨Or.inr hx.1, hx.2⟩
      · rintro (hx | ⟨(hx | hx), hp⟩)
        · exact Or.inl (Or.inl hx)
        · subst hx
          exact Or.inl (Or.inr rfl)
        · exact Or.inr ⟨hx, hp⟩
    · rw [if_neg hc]
      push_neg at hc
      simp only [List.mem_cons]
      constructor
      · rintro (hx | hx)
        · exact Or.inl hx
        · exact Or.inr ⟨Or.inr hx.1, hx.2⟩
      · rintro (hx | ⟨(hx | hx), hp⟩)
        · exact Or.inl hx
        · subst hx
          exact Or.inl (hc hp.1 hp.2)
        · exact Or.inr ⟨hx, hp⟩

theorem nodup_foldl_pushSecond (v : Nat) (first : List Nat) :
    ∀ (ws acc : List Nat), acc.Nodup →
      (ws.foldl (pushSecond v first) acc).Nodup
  | [], _, h => h
  | w :: ws, acc, h => by
    rw [List.foldl_cons]
    refine nodup_foldl_pushSecond v first ws _ ?_
    unfold pushSecond
    by_cases hc : w ≠ v ∧ w ∉ first ∧ w ∉ acc
    · rw [if_pos hc]
      exact List.Nodup.append h (List.nodup_singleton w)
        (by simpa using fun hw => hc.2.2 hw)
    · rw [if_neg hc]
      exact h

theorem mem_outer_fold (E : List (Nat × Nat)) (v : Nat) (first : List Nat) :
    ∀ (us acc : List Nat) (x : Nat),
      x ∈ us.foldl
          (fun acc u => (successorTargets E u).foldl (pushSecond v first) acc)
          acc ↔
        x ∈ acc ∨ ((∃ u ∈ us, (u, x) ∈ E) ∧ x ≠ v ∧ x ∉ first)
  | [], acc, x => by simp
  | u :: us, acc, x => by
    rw [List.foldl_cons, mem_outer_fold E v first us _ x,
      mem_foldl_pushSecond v first]
    simp only [List.mem_cons, mem_successorTargets]
    constructor
    · rintro ((hx | hx) | hx)
      · exact Or.inl hx
      · exact Or.inr ⟨⟨u, Or.inl rfl, hx.1⟩, hx.2⟩
      · obtain ⟨⟨u2, hu2, he⟩, hp⟩ := hx
        exact Or.inr ⟨⟨u2, Or.inr hu2, he⟩, hp⟩
    · rintro (hx | ⟨⟨u2, (hu2 | hu2), he⟩, hp⟩)
      · exact Or.inl (Or.inl hx)
      · subst hu2
        exact Or.inl (Or.inr ⟨he, hp⟩)
      · exact Or.inr ⟨⟨u2, hu2, he⟩, hp⟩

theorem nodup_jsSecondNeighbors (E : List (Nat × Nat)) (v : Nat) :
    (jsSecondNeighbors E v).Nodup := by
  unfold jsSecondNeighbors
  generalize jsFirstNeighbors E v = first
  have : ∀ (us acc : List Nat), acc.Nodup →
      (us.foldl
        (fun acc u => (successorTargets E u).foldl (pushSecond v first) acc)
        acc).Nodup := by
    intro us
    induction us with
    | nil => exact fun _ h => h
    | cons u us ih =>
      intro acc h
      rw [List.foldl_cons]
      exact ih _ (nodup_foldl_pushSecond v first _ _ h)
  exact this _ [] List.nodup_nil

theorem mem_jsSecondNeighbors {E : List (Nat × Nat)} {v x : Nat} :
    x ∈ jsSecondNeighbors E v ↔
      (∃ u ∈ jsFirstNeighbors E v, (u, x) ∈ E) ∧ x ≠ v ∧
        x ∉ jsFirstNeighbors E v := by
  unfold jsSecondNeighbors
  rw [mem_outer_fold E v (jsFirstNeighbors E v) (jsFirstNeighbors E v) [] x]
  simp

theorem jsSecond_toFinset (E : List (Nat × Nat)) (v : Nat) :
    (jsSecondNeighbors E v).toFinset = secondNeighbors E v := by
  ext x
  rw [List.mem_toFinset, mem_jsSecondNeighbors, mem_secondNeighbors]
  have hb : ∀ u : Nat, u ∈ jsFirstNeighbors E v ↔ u ∈ firstNeighbors E v := by
    intro u
    rw [mem_firstNeighbors]
    exact mem_successorTargets
  have hx : x ∈ jsFirstNeighbors E v ↔ x ∈ firstNeighbors E v := hb x
  constructor
  · rintro ⟨⟨u, hu, he⟩, hxv, hxf⟩
    exact ⟨⟨u, (hb u).mp hu, he⟩, fun h => hxf (hx.mpr h), hxv⟩
  · rintro ⟨⟨u, hu, he⟩, hxf, hxv⟩
    exact ⟨⟨u, (hb u).mpr hu, he⟩, hxv, fun h => hxf (hx.mp h)⟩

/-- C10: for every edge list without duplicate (from, to) pairs and every
vertex, the in-canvas JavaScript classifier `updateSeymourStatus` computes
the same flagged verdict as the Python classifier
`analyze_seymour_vertices`. -/
theorem C10_classifiers_agree (E : List (Nat × Nat)) (v : Nat)
    (h : E.Nodup) :
    jsIsSeymour E v = (analyzeVertex E v).satisfies_property := by
  have h1 : (jsFirstNeighbors E v).length = (firstNeighbors E v).card := by
    unfold firstNeighbors
    rw [List.toFinset_card_of_nodup (nodup_successorTargets h v)]
    rfl
  have h2 : (jsSecondNeighbors E v).length = (secondNeighbors E v).card := by
    rw [← jsSecond_toFinset E v,
      List.toFinset_card_of_nodup (nodup_jsSecondNeighbors E v)]
  show decide ((jsSecondNeighbors E v).length ≥ (jsFirstNeighbors E v).length)
      = decide ((secondNeighbors E v).card ≥ (firstNeighbors E v).card)
  rw [h1, h2]

/-- Witness for C10 at a concrete input: on the duplicate-free edge list
(0,1),(1,2),(2,0),(1,3) the verdicts agree at vertex 1. -/
theorem C10_classifiers_agree_witness :
    ([(0, 1), (1, 2), (2, 0), (1, 3)] : List (Nat × Nat)).Nodup ∧
    jsIsSeymour [(0, 1), (1, 2), (2, 0), (1, 3)] 1 =
      (analyzeVertex [(0, 1), (1, 2), (2, 0), (1, 3)] 1).satisfies_property :=
  ⟨by decide, C10_classifiers_agree [(0, 1), (1, 2), (2, 0), (1, 3)] 1
    (by decide)⟩

/-! ## The connect-gesture release

Source (`mouseup` listener, src/interactive_graph_editor.py lines 632-666):
```
const existingEdge = graphData.edges.find(
    edge => edge.from === startDragNode.id && edge.to === targetNode.id);
const reverseEdge = graphData.edges.find(
    edge => edge.from === targetNode.id && edge.to === startDragNode.id);
if (!existingEdge) {
    if (reverseEdge) {
        reverseEdge.from = startDragNode.id;
        reverseEdge.to = targetNode.id;
    } else {
        graphData.edges.push({ from: startDragNode.id, to: targetNode.id });
    }
}
```
-/

/-- In-place mutation of the object `Array.find` returned: replace the first
edge equal to `(t, v)` by `(v, t)`, leaving every other position alone. -/
def reverseFirst : List (Nat × Nat) → Nat → Nat → List (Nat × Nat)
  | [], _, _ => []
  | e :: es, t, v =>
    if e = (t, v) then (v, t) :: es else e :: reverseFirst es t v

theorem reverseFirst_cons (e : Nat × Nat) (es : List (Nat × Nat))
    (t v : Nat) :
    reverseFirst (e :: es) t v =
      if e = (t, v) then (v, t) :: es else e :: reverseFirst es t v := rfl

/-- The edge-list effect of releasing a connect-mode drag from `v` over a
target `t`: duplicate suppressed, else reverse edge mutated in place, else a
new edge pushed. -/
def connectRelease (E : List (Nat × Nat)) (v t : Nat) : List (Nat × Nat) :=
  if (E.find? (fun e => e.1 == v && e.2 == t)).isSome then E
  else if (E.find? (fun e => e.1 == t && e.2 == v)).isSome then
    reverseFirst E t v
  else E ++ [(v, t)]

/-- A whole connect-mode gesture in terms of edges: the second component is
the vertex under the release point (`none` over empty space); the handler
mutates only when a target exists and differs from the drag origin
(`targetNode && targetNode !== startDragNode`). -/
def connectGesture (E : List (Nat × Nat)) (g : Nat × Option Nat) :
    List (Nat × Nat) :=
  match g.2 with
  | none => E
  | some t => if t = g.1 then E else connectRelease E g.1 t

theorem findPair_isSome (E : List (Nat × Nat)) (a b : Nat) :
    (E.find? (fun e => e.1 == a && e.2 == b)).isSome ↔ (a, b) ∈ E := by
  rw [List.find?_isSome]
  constructor
  · rintro ⟨e, he, hp⟩
    have : e = (a, b) := by
      cases e
      simp_all [Prod.ext_iff]
    exact this ▸ he
  · intro h
    exact ⟨(a, b), h, by simp⟩

theorem reverseFirst_spec {E : List (Nat × Nat)} {t v : Nat}
    (h : (t, v) ∈ E) :
    ∃ i : Nat, ∃ hi : i < E.length,
      E.get ⟨i, hi⟩ = (t, v) ∧
      reverseFirst E t v = E.set i (v, t) ∧
      ∀ j : Nat, ∀ hj : j < E.length, j < i → E.get ⟨j, hj⟩ ≠ (t, v) := by
  induction E with
  | nil => cases h
  | cons e es ih =>
    by_cases he : e = (t, v)
    · refine ⟨0, by simp, by simpa using he, ?_, ?_⟩
      · rw [reverseFirst_cons, if_pos he]
        rfl
      · intro j hj hj0
        exact absurd hj0 (Nat.not_lt_zero j)
    · have hmem : (t, v) ∈ es := by
        rcases List.mem_cons.mp h with h1 | h1
        · exact absurd h1.symm he
        · exact h1
      obtain ⟨i, hi, hget, hrev, hmin⟩ := ih hmem
      refine ⟨i + 1, by simpa using Nat.succ_lt_succ hi, by simpa using hget,
        ?_, ?_⟩
      · rw [reverseFirst_cons, if_neg he, hrev]
        rfl
      · intro j hj hlt
        cases j with
        | zero => simpa using he
        | succ k =>
          have hk : k < es.length := by simpa using hj
          have := hmin k hk (Nat.lt_of_succ_lt_succ hlt)
          simpa using this

theorem reverseFirst_length (E : List (Nat × Nat)) (t v : Nat) :
    (reverseFirst E t v).length = E.length := by
  induction E with
  | nil => rfl
  | cons e es ih =>
    rw [reverseFirst_cons]
    by_cases he : e = (t, v)
    · rw [if_pos he]
      rfl
    · rw [if_neg he]
      simpa using ih

/-! ## Claim C2 -/

/-- C2: releasing a connect-mode drag from `v` onto a target `t` distinct
from `v` leaves the graph unchanged when edge (v,t) exists; else, when the
reverse edge (t,v) exists, mutates the first such edge in place to (v,t)
(edge count unchanged — no edge added or removed); else pushes a new edge
(v,t).  Releasing over empty space changes nothing.  In the section-8
scenario, dragging 2 onto 0 with edge (0,2) present turns it into (2,0) in
place and the edge count stays 4. -/
theorem C2_connect_release (E : List (Nat × Nat)) (v t : Nat) (_hvt : t ≠ v) :
    ((v, t) ∈ E → connectRelease E v t = E) ∧
    ((v, t) ∉ E → (t, v) ∈ E →
      connectRelease E v t = reverseFirst E t v ∧
      (connectRelease E v t).length = E.length ∧
      ∃ i : Nat, ∃ hi : i < E.length,
        E.get ⟨i, hi⟩ = (t, v) ∧ connectRelease E v t = E.set i (v, t) ∧
        ∀ j : Nat, ∀ hj : j < E.length, j < i → E.get ⟨j, hj⟩ ≠ (t, v)) ∧
    ((v, t) ∉ E → (t, v) ∉ E → connectRelease E v t = E ++ [(v, t)]) ∧
    connectGesture E (v, none) = E ∧
    connectRelease [(0, 1), (1, 2), (0, 2), (1, 3)] 2 0 =
      [(0, 1), (1, 2), (2, 0), (1, 3)] ∧
    (connectRelease [(0, 1), (1, 2), (0, 2), (1, 3)] 2 0).length = 4 := by
  refine ⟨?_, ?_, ?_, rfl, by decide, by decide⟩
  · intro h
    unfold connectRelease
    rw [if_pos ((findPair_isSome E v t).mpr h)]
  · intro h1 h2
    have hcr : connectRelease E v t = reverseFirst E t v := by
      unfold connectRelease
      rw [if_neg (by simpa using fun hc => h1 ((findPair_isSome E v t).mp hc)),
        if_pos ((findPair_isSome E t v).mpr h2)]
    obtain ⟨i, hi, hget, hrev, hmin⟩ := reverseFirst_spec h2
    refine ⟨hcr, by rw [hcr, reverseFirst_length], i, hi, hget, ?_, hmin⟩
    rw [hcr, hrev]
  · intro h1 h2
    unfold connectRelease
    rw [if_neg (by simpa using fun hc => h1 ((findPair_isSome E v t).mp hc)),
      if_neg (by simpa using fun hc => h2 ((findPair_isSome E t v).mp hc))]

/-- Witness for C2 at the section-8 scenario input. -/
theorem C2_connect_release_witness :
    (0 : Nat) ≠ 2 ∧
    ((2, 0) ∈ ([(0, 1), (1, 2), (0, 2), (1, 3)] : List (Nat × Nat)) →
      connectRelease [(0, 1), (1, 2), (0, 2), (1, 3)] 2 0 =
        [(0, 1), (1, 2), (0, 2), (1, 3)]) ∧
    connectRelease [(0, 1), (1, 2), (0, 2), (1, 3)] 2 0 =
      [(0, 1), (1, 2), (2, 0), (1, 3)] :=
  ⟨by decide,
    (C2_connect_release [(0, 1), (1, 2), (0, 2), (1, 3)] 2 0 (by decide)).1,
    (C2_connect_release [(0, 1), (1, 2), (0, 2), (1, 3)] 2 0
      (by decide)).2.2.2.2.1⟩

/-! ## Claim C7 -/

/-- No pair of opposite edges (and hence no self-loop) is present. -/
def noTwoCycles (E : List (Nat × Nat)) : Prop :=
  ∀ e ∈ E, (e.2, e.1) ∉ E

instance noTwoCyclesDecidable (E : List (Nat × Nat)) :
    Decidable (noTwoCycles E) :=
  List.decidableBAll _ E

theorem mem_reverseFirst {E : List (Nat × Nat)} {t v : Nat}
    {x : Nat × Nat} (h : x ∈ reverseFirst E t v) : x = (v, t) ∨ x ∈ E := by
  induction E with
  | nil => cases h
  | cons e es ih =>
    by_cases he : e = (t, v)
    · have : x ∈ (v, t) :: es := by
        have hrw : reverseFirst (e :: es) t v = (v, t) :: es := by
          rw [reverseFirst_cons, if_pos he]
        rw [hrw] at h
        exact h
      rcases List.mem_cons.mp this with h1 | h1
      · exact Or.inl h1
      · exact Or.inr (List.mem_cons_of_mem e h1)
    · have hrw : reverseFirst (e :: es) t v = e :: reverseFirst es t v := by
        show (if e = (t, v) then _ else _) = _
        rw [if_neg he]
      rw [hrw] at h
      rcases List.mem_cons.mp h with h1 | h1
      · exact Or.inr (h1 ▸ List.mem_cons_self e es)
      · rcases ih h1 with h2 | h2
        · exact Or.inl h2
        · exact Or.inr (List.mem_cons_of_mem e h2)

theorem reverseFirst_nodup {E : List (Nat × Nat)} {t v : Nat}
    (hn : E.Nodup) (hv : (v, t) ∉ E) : (reverseFirst E t v).Nodup := by
  induction E with
  | nil => exact List.nodup_nil
  | cons e es ih =>
    rw [List.nodup_cons] at hn
    by_cases he : e = (t, v)
    · have hrw : reverseFirst (e :: es) t v = (v, t) :: es := by
        show (if e = (t, v) then _ else _) = _
        rw [if_pos he]
      rw [hrw, List.nodup_cons]
      exact ⟨fun hc => hv (List.mem_cons_of_mem e hc), hn.2⟩
    · have hrw : reverseFirst (e :: es) t v = e :: reverseFirst es t v := by
        show (if e = (t, v) then _ else _) = _
        rw [if_neg he]
      rw [hrw, List.nodup_cons]
      refine ⟨fun hc => ?_, ih hn.2 (fun hc => hv (List.mem_cons_of_mem e hc))⟩
      rcases mem_reverseFirst hc with h1 | h1
      · exact hv (h1 ▸ List.mem_cons_self e es)
      · exact hn.1 h1

theorem not_mem_reverseFirst {E : List (Nat × Nat)} {t v : Nat}
    (hn : E.Nodup) (hv : (v, t) ∉ E) : (t, v) ∉ reverseFirst E t v := by
  induction E with
  | nil => simp [reverseFirst]
  | cons e es ih =>
    rw [List.nodup_cons] at hn
    by_cases he : e = (t, v)
    · have hrw : reverseFirst (e :: es) t v = (v, t) :: es := by
        show (if e = (t, v) then _ else _) = _
        rw [if_pos he]
      rw [hrw]
      intro hc
      rcases List.mem_cons.mp hc with h1 | h1
      · have htv : t = v := by
          have := Prod.ext_iff.mp h1
          simp at this
          omega
        apply hv
        rw [htv] at he ⊢
        exact he ▸ List.mem_cons_self e es
      · exact hn.1 (he ▸ h1)
    · have hrw : reverseFirst (e :: es) t v = e :: reverseFirst es t v := by
        show (if e = (t, v) then _ else _) = _
        rw [if_neg he]
      rw [hrw]
      intro hc
      rcases List.mem_cons.mp hc with h1 | h1
      · exact he h1.symm
      · exact ih hn.2 (fun hc2 => hv (List.mem_cons_of_mem e hc2)) h1

theorem connectGesture_preserves {E : List (Nat × Nat)}
    (h1 : E.Nodup) (h2 : noTwoCycles E) (g : Nat × Option Nat) :
    (connectGesture E g).Nodup ∧ noTwoCycles (connectGesture E g) := by
  obtain ⟨v, tg⟩ := g
  cases tg with
  | none => exact ⟨h1, h2⟩
  | some t =>
    show ((if t = v then E else connectRelease E v t).Nodup ∧
      noTwoCycles (if t = v then E else connectRelease E v t))
    by_cases htv : t = v
    · rw [if_pos htv]
      exact ⟨h1, h2⟩
    rw [if_neg htv]
    by_cases hex : (v, t) ∈ E
    · unfold connectRelease
      rw [if_pos ((findPair_isSome E v t).mpr hex)]
      exact ⟨h1, h2⟩
    by_cases hrev : (t, v) ∈ E
    · have hcr : connectRelease E v t = reverseFirst E t v := by
        unfold connectRelease
        rw [if_neg
            (by simpa using fun hc => hex ((findPair_isSome E v t).mp hc)),
          if_pos ((findPair_isSome E t v).mpr hrev)]
      rw [hcr]
      refine ⟨reverseFirst_nodup h1 hex, ?_⟩
      rintro ⟨a, b⟩ hab hba
      simp only at hba
      rcases mem_reverseFirst hab with hc | hc
      · have hba2 : (b, a) = (t, v) := by
          have := Prod.ext_iff.mp hc
          simp at this
          simp [this.1, this.2]
        rw [hba2] at hba
        exact not_mem_reverseFirst h1 hex hba
      · rcases mem_reverseFirst hba with hd | hd
        · have hab2 : (a, b) = (t, v) := by
            have := Prod.ext_iff.mp hd
            simp at this
            simp [this.1, this.2]
          rw [hab2] at hab
          exact not_mem_reverseFirst h1 hex hab
        · exact h2 (a, b) hc hd
    · have hcr : connectRelease E v t = E ++ [(v, t)] := by
        unfold connectRelease
        rw [if_neg
            (by simpa using fun hc => hex ((findPair_isSome E v t).mp hc)),
          if_neg
            (by simpa using fun hc => hrev ((findPair_isSome E t v).mp hc))]
      rw [hcr]
      constructor
      · exact List.Nodup.append h1 (List.nodup_singleton _)
          (by simpa using fun hc => hex hc)
      · rintro ⟨a, b⟩ hab hba
        simp only at hba
        rcases List.mem_append.mp hab with hc | hc
        · rcases List.mem_append.mp hba with hd | hd
          · exact h2 (a, b) hc hd
          · have : (b, a) = (v, t) := by simpa using hd
            have hab2 : (a, b) = (t, v) := by
              have := Prod.ext_iff.mp this
              simp at this
              simp [this.1, this.2]
            exact hrev (hab2 ▸ hc)
        · have hab2 : (a, b) = (v, t) := by simpa using hc
          rcases List.mem_append.mp hba with hd | hd
          · have hba2 : (b, a) = (t, v) := by
              have := Prod.ext_iff.mp hab2
              simp at this
              simp [this.1, this.2]
            exact hrev (hba2 ▸ hd)
          · have hba2 : (b, a) = (v, t) := by simpa using hd
            have := Prod.ext_iff.mp hab2
            have h4 := Prod.ext_iff.mp hba2
            simp at this h4
            omega

/-- C7: starting from an edge list with no duplicate ordered pairs and no
two vertices joined in both directions, any sequence of connect-mode
gestures preserves both invariants: no two edges ever share the same
ordered (from, to) pair, and no pair (a,b),(b,a) is ever simultaneously
present. -/
theorem C7_connect_invariants (gs : List (Nat × Option Nat)) :
    ∀ E : List (Nat × Nat), E.Nodup → noTwoCycles E →
      (gs.foldl connectGesture E).Nodup ∧
        noTwoCycles (gs.foldl connectGesture E) := by
  induction gs with
  | nil => exact fun E h1 h2 => ⟨h1, h2⟩
  | cons g gs ih =>
    intro E h1 h2
    rw [List.foldl_cons]
    obtain ⟨h3, h4⟩ := connectGesture_preserves h1 h2 g
    exact ih _ h3 h4

/-- Witness for C7 on a concrete gesture sequence: from [(0,1)], dragging 1
onto 0 (reversal) then 2 onto 3 (creation) keeps both invariants. -/
theorem C7_connect_invariants_witness :
    ([(0, 1)] : List (Nat × Nat)).Nodup ∧
    noTwoCycles [(0, 1)] ∧
    ([(1, some 0), (2, some 3)].foldl connectGesture
      [(0, 1)]).Nodup ∧
    noTwoCycles ([(1, some 0), (2, some 3)].foldl connectGesture [(0, 1)]) :=
  ⟨by decide, by decide,
    (C7_connect_invariants [(1, some 0), (2, some 3)] [(0, 1)] (by decide)
      (by decide)).1,
    (C7_connect_invariants [(1, some 0), (2, some 3)] [(0, 1)] (by decide)
      (by decide)).2⟩

/-! ## The in-canvas editor state machine

The mutable script state that can influence graph mutations:
`graphData.nodes`, `graphData.edges`, `moveMode`, `startDragNode`,
`isDragging`, `dragStartX/Y`, `lastMouseX/Y`.  The remaining script
variables (`selectedNode`, `dragMode`, `edgeMode`, `sourceNode`,
`dragStartTime`) only feed rendering and status strings, never a graph
mutation, and are omitted.

`startDragNode` holds a reference to a node object; it is embedded as the
id of that object together with a `detached` flag: while `detached` is
false the reference aliases the listed node carrying that id (the listed
ids are distinct in every state considered here), and after the
`graphDataUpdate` listener replaces `graphData` wholesale the saved
reference no longer aliases any listed object, which `detached := true`
records: position writes through it no longer reach `graphData.nodes`,
and the identity test `targetNode !== startDragNode` is then true even
for an equal id. -/

structure EState where
  nodes : List JsNode
  edges : List (Nat × Nat)
  moveMode : Bool
  startDrag : Option Nat
  detached : Bool
  isDragging : Bool
  dragStartX : Int
  dragStartY : Int
  lastX : Int
  lastY : Int
deriving DecidableEq, Repr

/-- `getNodeAt` body for one node: `Math.sqrt((x-nx)^2+(y-ny)^2) <= 25`,
embedded as the equivalent comparison of squares (both sides of the source
comparison are nonnegative). -/
def nodeHitB (n : JsNode) (x y : Int) : Bool :=
  decide ((x - n.x) ^ 2 + (y - n.y) ^ 2 ≤ 625)

/-- `getNodeAt`: the first node in array order within the display radius. -/
def getNodeAt (nodes : List JsNode) (x y : Int) : Option JsNode :=
  nodes.find? (fun n => nodeHitB n x y)

/-- `distanceToLine(x,y,x1,y1,x2,y2) <= 10`, embedded exactly:
`param = dot / lenSq` is compared through `param < 0  iff  dot < 0` and
`param > 1  iff  dot > lenSq` (`lenSq > 0` in those branches), and in the
clamped-interior branch the squared distance
`((A - param*C)^2 + (B - param*D)^2)` is compared with `100` after
clearing the positive denominator `lenSq^2`.  All transformations are
exact over the reals, so the Boolean agrees with the source. -/
def edgeNearB (px py x1 y1 x2 y2 : Int) : Bool :=
  let a := px - x1
  let b := py - y1
  let c := x2 - x1
  let d := y2 - y1
  let dot := a * c + b * d
  let lenSq := c * c + d * d
  if lenSq = 0 then decide (a ^ 2 + b ^ 2 ≤ 100)
  else if dot < 0 then decide ((px - x1) ^ 2 + (py - y1) ^ 2 ≤ 100)
  else if dot > lenSq then decide ((px - x2) ^ 2 + (py - y2) ^ 2 ≤ 100)
  else
    decide ((a * lenSq - dot * c) ^ 2 + (b * lenSq - dot * d) ^ 2 ≤
      100 * lenSq ^ 2)

/-- One `getEdgeAt` loop iteration: look the endpoint objects up by id
(`graphData.nodes.find(n => n.id === edge.from)`), skip the edge when either
is missing. -/
def edgeHitB (nodes : List JsNode) (e : Nat × Nat) (x y : Int) : Bool :=
  match nodes.find? (fun n => n.id == e.1),
      nodes.find? (fun n => n.id == e.2) with
  | some f, some t => edgeNearB x y f.x f.y t.x t.y
  | _, _ => false

/-- Find the first node under the point and remove exactly that object
(`Array.find` followed by the identity filter `n2 !== node`). -/
def deleteNodeHit (x y : Int) : List JsNode → Option (JsNode × List JsNode)
  | [] => none
  | n :: rest =>
    if nodeHitB n x y then some (n, rest)
    else (deleteNodeHit x y rest).map (fun p => (p.1, n :: p.2))

/-- Find the first edge under the point and remove exactly that object
(`getEdgeAt` followed by the identity filter `e !== edge`). -/
def deleteEdgeHit (nodes : List JsNode) (x y : Int) :
    List (Nat × Nat) → Option ((Nat × Nat) × List (Nat × Nat))
  | [] => none
  | e :: es =>
    if edgeHitB nodes e x y then some (e, es)
    else (deleteEdgeHit nodes x y es).map (fun p => (p.1, e :: p.2))

/-- `updateSeymourStatus`: refresh every `node.is_seymour` flag from the
current edge array. -/
def updateSeymourStatus (s : EState) : EState :=
  { s with nodes :=
      s.nodes.map (fun n => { n with is_seymour := jsIsSeymour s.edges n.id }) }

/-- `seymourCount`: the number of nodes whose stored flag is set. -/
def flaggedCount (s : EState) : Nat :=
  (s.nodes.filter (fun n => n.is_seymour)).length

/-- `checkForWin` condition: `seymourCount === 0 && nodes.length > 0`,
reading the `is_seymour` flags stored on the nodes. -/
def checkForWin (s : EState) : Bool :=
  (flaggedCount s == 0) && decide (0 < s.nodes.length)

/-- Number of times one handler invocation raises the solved signal. -/
def winFires (s : EState) : Nat := if checkForWin s then 1 else 0

/-- `renumberNodes`: sort the node objects ascending by id (the comparator
`(a, b) => a.id - b.id`; with distinct ids every sort produces the same
sorted array), map each old id to its sorted position, rewrite node ids and
edge endpoints through the mapping. -/
def renumberNodes (nodes : List JsNode) (edges : List (Nat × Nat)) :
    List JsNode × List (Nat × Nat) :=
  let sorted := List.insertionSort (fun a b : JsNode => a.id ≤ b.id) nodes
  let mapId := fun old => sorted.findIdx (fun n => n.id == old)
  (nodes.map (fun n => { n with id := mapId n.id }),
    edges.map (fun e => (mapId e.1, mapId e.2)))

/-- The `mousedown` listener, left-button branch (lines 526-544): record the
pressed node and press position; no graph change. -/
def mousedownLeft (s : EState) (x y : Int) : EState :=
  let s1 := { s with lastX := x, lastY := y }
  match getNodeAt s1.nodes x y with
  | some n =>
    { s1 with
      startDrag := some n.id
      detached := false
      isDragging := false
      dragStartX := x
      dragStartY := y }
  | none => { s1 with startDrag := none, isDragging := false }

/-- The `mousedown` listener, right-button branch (lines 545-565): delete
the node under the cursor together with its incident edges (NO renumbering,
NO win check), else delete the edge under the cursor (NO win check). -/
def mousedownRight (s : EState) (x y : Int) : EState :=
  let s1 := { s with lastX := x, lastY := y }
  match deleteNodeHit x y s1.nodes with
  | some (n, rest) =>
    updateSeymourStatus
      { s1 with
        edges := s1.edges.filter (fun e => !(e.1 == n.id) && !(e.2 == n.id)),
        nodes := rest }
  | none =>
    match deleteEdgeHit s1.nodes x y s1.edges with
    | some (_, rest) => updateSeymourStatus { s1 with edges := rest }
    | none => s1

/-- The `contextmenu` listener (lines 706-738): delete the node under the
cursor with its incident edges, renumber, win check; else delete the edge
under the cursor, win check. -/
def contextmenu (s : EState) (x y : Int) : EState × Nat :=
  match deleteNodeHit x y s.nodes with
  | some (n, rest) =>
    let edges2 := s.edges.filter (fun e => !(e.1 == n.id) && !(e.2 == n.id))
    let p := renumberNodes rest edges2
    let s2 := updateSeymourStatus { s with nodes := p.1, edges := p.2 }
    (s2, winFires s2)
  | none =>
    match deleteEdgeHit s.nodes x y s.edges with
    | some (_, rest) =>
      let s2 := updateSeymourStatus { s with edges := rest }
      (s2, winFires s2)
    | none => (s, 0)

/-- A physical right-click: the browser dispatches `mousedown` with
`button === 2` and then `contextmenu` at the same position (the interleaved
`mouseup` leaves the graph untouched since `startDragNode` is null after a
right-button press). -/
def rightClick (s : EState) (x y : Int) : EState × Nat :=
  contextmenu (mousedownRight s x y) x y

/-- The `mousemove` listener (lines 568-622): update the last position;
cross the drag threshold (`distanceMoved > 10`, squared comparison); while
dragging in move mode write the pointer position through the saved node
reference (dropped when the reference is detached). -/
def mousemove (s : EState) (x y : Int) : EState :=
  let s1 := { s with lastX := x, lastY := y }
  let s2 :=
    if s1.startDrag.isSome && !s1.isDragging &&
        decide ((x - s1.dragStartX) ^ 2 + (y - s1.dragStartY) ^ 2 > 100) then
      { s1 with isDragging := true }
    else s1
  match s2.startDrag with
  | some d =>
    if s2.isDragging then
      if s2.moveMode && !s2.detached then
        { s2 with nodes :=
            s2.nodes.map (fun n =>
              if n.id == d then { n with x := x, y := y } else n) }
      else s2
    else s2
  | none => s2

/-- Reset performed at the end of every `mouseup` (lines 676-683). -/
def resetDrag (s : EState) : EState :=
  { s with isDragging := false, startDrag := none, detached := false }

/-- The `mouseup` listener (lines 624-684).  Branch order as in the source:
move-mode drag (no structural change), connect-mode drag over a valid
target (duplicate suppressed / reverse in place / create, then win check),
otherwise no mutation; always reset the drag state. -/
def mouseup (s : EState) (x y : Int) : EState × Nat :=
  let target := getNodeAt s.nodes x y
  let p :=
    match s.startDrag with
    | some d =>
      if s.isDragging && s.moveMode then (s, 0)
      else if s.isDragging && !s.moveMode then
        match target with
        | some t =>
          if s.detached || !(t.id == d) then
            if (s.edges.find? (fun e : Nat × Nat =>
                e.1 == d && e.2 == t.id)).isSome then
              (s, 0)
            else
              let s2 := updateSeymourStatus
                { s with edges := connectRelease s.edges d t.id }
              (s2, winFires s2)
          else (s, 0)
        | none => (s, 0)
      else (s, 0)
    | none => (s, 0)
  (resetDrag p.1, p.2)

/-- The `graphDataUpdate` listener (lines 759-769): replace the graph data
wholesale (detaching any saved node reference), adopt the carried mode flag
when present, refresh the flags. -/
def dataUpdate (s : EState) (ns : List JsNode) (es : List (Nat × Nat))
    (m : Option Bool) : EState :=
  let s1 := { s with nodes := ns, edges := es, detached := true }
  let s2 := match m with
    | some b => { s1 with moveMode := b }
    | none => s1
  updateSeymourStatus s2

/-- The pointer/update events a browser session delivers to the editor. -/
inductive EditorEv where
  | downL (x y : Int)
  | rclickEv (x y : Int)
  | moveEv (x y : Int)
  | upEv (x y : Int)
  | dataEv (ns : List JsNode) (es : List (Nat × Nat)) (m : Option Bool)
deriving DecidableEq, Repr

/-- One event step; the second component counts solved-signal firings. -/
def stepEv (s : EState) : EditorEv → EState × Nat
  | .downL x y => (mousedownLeft s x y, 0)
  | .rclickEv x y => rightClick s x y
  | .moveEv x y => (mousemove s x y, 0)
  | .upEv x y => mouseup s x y
  | .dataEv ns es m => (dataUpdate s ns es m, 0)

/-- Run an event trace, accumulating solved-signal firings. -/
def runEvents (s : EState) (evs : List EditorEv) : EState × Nat :=
  evs.foldl (fun p ev => ((stepEv p.1 ev).1, p.2 + (stepEv p.1 ev).2)) (s, 0)

/-- The editor state right after the page script finishes loading: the
serialised nodes and edges, connect mode, no active gesture, followed by the
initial `updateSeymourStatus()` call. -/
def editorOnLoad (ns : List Nat) (es : List (Nat × Nat)) : EState :=
  updateSeymourStatus
    { nodes := (loadEditor ns es).1
      edges := (loadEditor ns es).2
      moveMode := false
      startDrag := none
      detached := false
      isDragging := false
      dragStartX := 0
      dragStartY := 0
      lastX := 0
      lastY := 0 }

/-! ## Claim C3 -/

/-- The result of a physical right-click at (200, 50) — the centre of the
vertex with id 1 — on the freshly loaded default graph
V = [0,1,2,3], E = [(0,1),(1,2),(2,0),(1,3)] (grid positions (50,50),
(200,50), (350,50), (500,50)). -/
def c3Result : EState × Nat :=
  stepEv (editorOnLoad [0, 1, 2, 3] [(0, 1), (1, 2), (2, 0), (1, 3)])
    (EditorEv.rclickEv 200 50)

/-- C3 (evaluation of the code at the failing input): right-clicking vertex 1
of the section-8 graph does NOT renumber.  The `mousedown` button-2 branch
deletes the node and its incident edges first (without renumbering); the
follow-up `contextmenu` handler then finds no node under the cursor, so its
renumbering branch never runs — instead it finds the surviving edge (2,0)
(whose segment passes under the cursor) and deletes it too.  The surviving
ids are [0, 2, 3], not the renumbered [0, 1, 2] the claim requires, and edge
(2,0) is destroyed instead of becoming (1,0). -/
theorem C3_right_click_skips_renumbering :
    c3Result.1.nodes.map JsNode.id = [0, 2, 3] ∧
    c3Result.1.edges = [] ∧
    c3Result.2 = 0 ∧
    c3Result.1.nodes.map JsNode.id ≠ [0, 1, 2] ∧
    (c3Result.1.nodes.map JsNode.id).toFinset ≠ Finset.range 3 ∧
    c3Result.1.edges ≠ [(1, 0)] := by
  refine ⟨by decide, by decide, by decide, by decide, by decide, by decide⟩

/-! ## Claim C4 -/

theorem winFires_cases (s : EState) :
    winFires s = 0 ∨ (winFires s = 1 ∧ checkForWin s = true) := by
  unfold winFires
  by_cases h : checkForWin s
  · rw [if_pos h]
    exact Or.inr ⟨rfl, h⟩
  · rw [if_neg h]
    exact Or.inl rfl

theorem checkForWin_spec {s : EState} (h : checkForWin s = true) :
    s.nodes ≠ [] ∧ flaggedCount s = 0 := by
  unfold checkForWin at h
  rw [Bool.and_eq_true] at h
  obtain ⟨h1, h2⟩ := h
  refine ⟨?_, by simpa using h1⟩
  have hp : 0 < s.nodes.length := by simpa using h2
  exact List.length_pos.mp hp

theorem contextmenu_fires (s : EState) (x y : Int) :
    (contextmenu s x y).2 = 0 ∨
      ((contextmenu s x y).2 = 1 ∧
        checkForWin (contextmenu s x y).1 = true) := by
  unfold contextmenu
  cases hd : deleteNodeHit x y s.nodes with
  | some p =>
    simp only [hd]
    exact winFires_cases _
  | none =>
    simp only [hd]
    cases he : deleteEdgeHit s.nodes x y s.edges with
    | some q =>
      simp only [he]
      exact winFires_cases _
    | none =>
      simp only [he]
      exact Or.inl (by trivial)

theorem mouseup_fires (s : EState) (x y : Int) :
    (mouseup s x y).2 = 0 ∨
      ((mouseup s x y).2 = 1 ∧ checkForWin (mouseup s x y).1 = true) := by
  unfold mouseup
  cases hsd : s.startDrag with
  | none =>
    simp only [hsd]
    exact Or.inl (by trivial)
  | some d =>
    simp only [hsd]
    by_cases h1 : s.isDragging && s.moveMode
    · rw [if_pos h1]
      exact Or.inl rfl
    · rw [if_neg h1]
      by_cases h2 : s.isDragging && !s.moveMode
      · rw [if_pos h2]
        cases ht : getNodeAt s.nodes x y with
        | none =>
          simp only [ht]
          exact Or.inl (by trivial)
        | some t =>
          simp only [ht]
          by_cases h3 : s.detached || !(t.id == d)
          · rw [if_pos h3]
            by_cases h4 :
                (s.edges.find? (fun e : Nat × Nat =>
                  e.1 == d && e.2 == t.id)).isSome
            · rw [if_pos h4]
              exact Or.inl rfl
            · rw [if_neg h4]
              exact winFires_cases _
          · rw [if_neg h3]
            exact Or.inl rfl
      · rw [if_neg h2]
        exact Or.inl rfl

/-- C4 (amended): the solved signal is level-triggered per win-checked
mutation, not one-shot: each event fires it at most once, and whenever it
fires the resulting graph is non-empty with zero flagged vertices — so it
never fires on an empty graph and never fires from pure renders or data
updates (mousemove, left press, graphDataUpdate fire nothing), but it CAN
fire again on a later mutation while the graph stays solved. -/
theorem C4_win_signal_level_triggered (s : EState) (ev : EditorEv) :
    ((stepEv s ev).2 = 0 ∨ (stepEv s ev).2 = 1) ∧
    ((stepEv s ev).2 = 1 →
      (stepEv s ev).1.nodes ≠ [] ∧ flaggedCount (stepEv s ev).1 = 0) ∧
    (∀ x y : Int, (stepEv s (EditorEv.moveEv x y)).2 = 0) ∧
    (∀ x y : Int, (stepEv s (EditorEv.downL x y)).2 = 0) ∧
    (∀ ns es m, (stepEv s (EditorEv.dataEv ns es m)).2 = 0) := by
  refine ⟨?_, ?_, fun x y => rfl, fun x y => rfl, fun ns es m => rfl⟩
  · cases ev with
    | downL x y => exact Or.inl rfl
    | moveEv x y => exact Or.inl rfl
    | dataEv ns es m => exact Or.inl rfl
    | upEv x y =>
      rcases mouseup_fires s x y with h | h
      · exact Or.inl h
      · exact Or.inr h.1
    | rclickEv x y =>
      rcases contextmenu_fires (mousedownRight s x y) x y with h | h
      · exact Or.inl h
      · exact Or.inr h.1
  · intro h
    cases ev with
    | downL x y => exact absurd h (by simp [stepEv])
    | moveEv x y => exact absurd h (by simp [stepEv])
    | dataEv ns es m => exact absurd h (by simp [stepEv])
    | upEv x y =>
      rcases mouseup_fires s x y with h0 | ⟨h1, h2⟩
      · exact absurd (h0.symm.trans h) (by decide)
      · exact checkForWin_spec h2
    | rclickEv x y =>
      rcases contextmenu_fires (mousedownRight s x y) x y with h0 | ⟨h1, h2⟩
      · exact absurd (h0.symm.trans h) (by decide)
      · exact checkForWin_spec h2

/-- The six-vertex counterexample graph for C4: two bidirected triangles
{0,1,2} and {3,4,5}, a bridge (0,3), and the bidirected pair (1,4),(4,1)
drawn as the vertical segment x = 100 between (100,0) and (100,300). -/
def c4Nodes : List JsNode :=
  [⟨0, 0, 0, false⟩, ⟨1, 100, 0, false⟩, ⟨2, 50, 80, false⟩,
    ⟨3, 0, 300, false⟩, ⟨4, 100, 300, false⟩, ⟨5, 50, 380, false⟩]

def c4Edges : List (Nat × Nat) :=
  [(1, 4), (4, 1), (0, 1), (1, 0), (0, 2), (2, 0), (1, 2), (2, 1),
    (3, 4), (4, 3), (3, 5), (5, 3), (4, 5), (5, 4), (0, 3)]

def c4Start : EState :=
  updateSeymourStatus
    { nodes := c4Nodes
      edges := c4Edges
      moveMode := false
      startDrag := none
      detached := false
      isDragging := false
      dragStartX := 0
      dragStartY := 0
      lastX := 0
      lastY := 0 }

/-- The two-mutation trace: a right-click on the segment between 1 and 4
(deleting both (1,4) and (4,1): the mousedown branch takes the first, the
contextmenu branch the second, then win-checks), followed by a connect drag
from 3 released over 0 (reversing (0,3) to (3,0), then win-checking). -/
def c4Trace : List EditorEv :=
  [EditorEv.rclickEv 100 150, EditorEv.downL 0 300, EditorEv.moveEv 50 150,
    EditorEv.upEv 0 0]

/-- C4 counterexample: starting from a non-empty graph with exactly one
flagged vertex, the first mutation of `c4Trace` transitions the flagged
count to zero and fires the solved signal once — but the second mutation,
which keeps the graph solved, fires it AGAIN: the trace contains exactly one
nonzero-to-zero transition yet fires twice, refuting the one-shot
edge-triggered claim. -/
theorem C4_counterexample :
    c4Start.nodes ≠ [] ∧
    flaggedCount c4Start = 1 ∧
    (runEvents c4Start [EditorEv.rclickEv 100 150]).2 = 1 ∧
    flaggedCount (runEvents c4Start [EditorEv.rclickEv 100 150]).1 = 0 ∧
    flaggedCount (runEvents c4Start c4Trace).1 = 0 ∧
    (runEvents c4Start c4Trace).2 = 2 := by
  refine ⟨by decide, by decide, by decide, by decide, by decide, by decide⟩

/-- Witness for C4 (amended) at a concrete firing event: the right-click of
`c4Trace` fires the signal and leaves a non-empty solved graph. -/
theorem C4_win_signal_level_triggered_witness :
    (stepEv c4Start (EditorEv.rclickEv 100 150)).2 = 1 ∧
    (stepEv c4Start (EditorEv.rclickEv 100 150)).1.nodes ≠ [] ∧
    flaggedCount (stepEv c4Start (EditorEv.rclickEv 100 150)).1 = 0 :=
  ⟨by decide,
    ((C4_win_signal_level_triggered c4Start
      (EditorEv.rclickEv 100 150)).2.1 (by decide)).1,
    ((C4_win_signal_level_triggered c4Start
      (EditorEv.rclickEv 100 150)).2.1 (by decide)).2⟩

/-! ## Claim C8 -/

/-- C8 (amended): the gesture mode is NOT latched at drag-start — no
per-gesture copy of the flag exists, so the structural effect of pointer-up
is decided by the `moveMode` value current at release: with the flag set the
release mutates nothing, with it clear the release performs the connect
mutation, whatever the flag was when the drag began. -/
theorem C8_mode_read_at_release (s : EState) (x y : Int) (d : Nat)
    (t : JsNode) (h1 : s.isDragging = true) (h2 : s.startDrag = some d)
    (h3 : getNodeAt s.nodes x y = some t)
    (h4 : s.detached = true ∨ t.id ≠ d) :
    (s.moveMode = true → (mouseup s x y).1.edges = s.edges) ∧
    (s.moveMode = false →
      (mouseup s x y).1.edges = connectRelease s.edges d t.id) := by
  have hcond : (s.detached || !(t.id == d)) = true := by
    rcases h4 with h | h
    · simp [h]
    · simp [h]
  constructor
  · intro hm
    unfold mouseup
    simp [h2, h3, h1, hm]
    rfl
  · intro hm
    unfold mouseup
    simp only [h2, h3, h1, hm, hcond, Bool.not_false, Bool.and_true,
      Bool.and_false, if_true, if_false]
    by_cases hex : (s.edges.find? (fun e : Nat × Nat =>
        e.1 == d && e.2 == t.id)).isSome
    · rw [if_pos hex]
      show s.edges = connectRelease s.edges d t.id
      unfold connectRelease
      rw [if_pos hex]
    · rw [if_neg hex]
      rfl

/-- The two-vertex starting state for the C8 counterexample: vertices 0 at
(0,0) and 1 at (200,0), no edges, connect mode. -/
def c8Start : EState :=
  updateSeymourStatus
    { nodes := [⟨0, 0, 0, false⟩, ⟨1, 200, 0, false⟩]
      edges := []
      moveMode := false
      startDrag := none
      detached := false
      isDragging := false
      dragStartX := 0
      dragStartY := 0
      lastX := 0
      lastY := 0 }

/-- Run 1: press vertex 0, cross the drag threshold, release over vertex 1,
with the mode left untouched. -/
def c8RunPlain : EState × Nat :=
  runEvents c8Start
    [EditorEv.downL 0 0, EditorEv.moveEv 100 0, EditorEv.upEv 200 0]

/-- Run 2: the same gesture, but between the threshold crossing and the
release the external mode toggle arrives (a `graphDataUpdate` carrying the
same nodes and edges and `move_mode: true`). -/
def c8RunToggled : EState × Nat :=
  runEvents c8Start
    [EditorEv.downL 0 0, EditorEv.moveEv 100 0,
      EditorEv.dataEv c8Start.nodes [] (some true), EditorEv.upEv 200 0]

/-- C8 counterexample: the two runs differ only in a mid-gesture flip of the
external mode flag, yet the untouched run ends with the new edge (0,1) and
the toggled run ends with no edge at all — the gesture outcome depends on
the mid-gesture value of the flag, while vertex positions agree in both
runs.  This refutes the two-run latching claim. -/
theorem C8_counterexample :
    c8RunPlain.1.edges = [(0, 1)] ∧
    c8RunToggled.1.edges = [] ∧
    c8RunPlain.1.edges ≠ c8RunToggled.1.edges ∧
    c8RunPlain.1.nodes.map (fun n => (n.id, n.x, n.y)) =
      c8RunToggled.1.nodes.map (fun n => (n.id, n.x, n.y)) := by
  refine ⟨by decide, by decide, by decide, by decide⟩

/-- The mid-gesture state shared by the two C8 runs, just before release. -/
def c8MidState : EState :=
  (runEvents c8Start [EditorEv.downL 0 0, EditorEv.moveEv 100 0]).1

/-- Witness for C8 (amended) at the concrete mid-gesture state: the release
over vertex 1 in connect mode performs exactly the connect mutation. -/
theorem C8_mode_read_at_release_witness :
    c8MidState.isDragging = true ∧
    c8MidState.startDrag = some 0 ∧
    getNodeAt c8MidState.nodes 200 0 = some ⟨1, 200, 0, true⟩ ∧
    c8MidState.moveMode = false ∧
    (mouseup c8MidState 200 0).1.edges =
      connectRelease c8MidState.edges 0 1 :=
  ⟨by decide, by decide, by decide, by decide,
    (C8_mode_read_at_release c8MidState 200 0 0 ⟨1, 200, 0, true⟩
      (by decide) (by decide) (by decide) (Or.inr (by decide))).2 (by decide)⟩

end SeymourVertices
